import Mathlib

/-!
Verification of the x-lang core (parser / renamer, type & termination
checker, lazy evaluator) against its natural-language specification.

The Rust sources are shallowly embedded:

* `Rc<ExprBody>` allocations are modelled by a `Nat` identity (`id`) carried
  on every `Expr` node; fresh allocations get fresh ids, `clone` keeps the
  id.  The checker's cycle guard (`expr_reach`, a set of raw pointers) is a
  list of these ids.  Rust structural equality (`PartialEq`, derived, which
  compares through the `Rc` and therefore ignores addresses) is modelled by
  the id-insensitive comparisons `exprEqS` / `dtEq`.
* `i64` is modelled by `Int` (overflow is outside every claim); `f64` is
  modelled by `Rat` — the claims about floats only inspect the constructor
  tag of results, never IEEE rounding.
* Interior mutability (`RefCell` thunk memo slots, the guard set) becomes
  explicit state passing.
* Recursive Rust functions become fuel-indexed structural recursions so
  that every definition computes by kernel reduction; fuel exhaustion is a
  distinguished error that the concrete programs below never hit.
* `ExprBody::Match` is everywhere `unimplemented!()` in the sources, has no
  surface syntax and is declared out of scope by the spec; it is omitted.
  The slot/release-pool machinery of `eval.rs` is dead code for every
  constructor in the repository and is likewise omitted.
-/

namespace XLang

/-- From the spec (§3) and its uses throughout `src` (`builtin.rs` itself is
not under `src/`, but all three variants appear in `corelib.rs` and
`typeck.rs`): `ValueType ∈ {Int, Float, Bool}`. -/
inductive ValueType where
  | int
  | float
  | bool
deriving DecidableEq, Repr

/-- `ConstExpr` from `src/src/ast.rs` lines 63-69. -/
inductive ConstExpr where
  | int (i : Int)
  | float (f : Rat)
  | bool (b : Bool)
  | empty
deriving DecidableEq, Repr

/-- `Expr` / `ExprBody` / `AbstractBody` from `src/src/ast.rs` lines 32-61,
flattened: the two `AbstractBody` cases become two constructors.  The `id`
field models the address of the `Rc<ExprBody>` allocation. -/
inductive Expr where
  | constE (id : Nat) (c : ConstExpr)
  | name (id : Nat) (s : String)
  | app (id : Nat) (target : Expr) (params : List Expr)
  | absExpr (id : Nat) (params : List String) (body : Expr)
  | absHost (id : Nat) (params : List String) (host : String)
  | never (id : Nat)
deriving Repr

/-- The modelled `Rc` allocation address of a node. -/
def Expr.exprId : Expr → Nat
  | .constE i _ => i
  | .name i _ => i
  | .app i _ _ => i
  | .absExpr i _ _ => i
  | .absHost i _ _ => i
  | .never i => i

/-- Pattern test for `*e.body == ExprBody::Never` (`typeck.rs` lines 125,
144): `Never` carries no fields, so Rust's structural equality against it is
a constructor test. -/
def Expr.isNeverE : Expr → Bool
  | .never _ => true
  | _ => false

/-- Pattern test for `if let ExprBody::Name(..) = *target.body`. -/
def Expr.isNameE : Expr → Bool
  | .name _ _ => true
  | _ => false

/-- `DataType` from `src/src/ast.rs` lines 8-19.  `param_set` (a
`BTreeMap<String, Expr>`) is an association list.  The only
`CustomDataType` in the repository is `List { inner_ty }`
(`corelib.rs` lines 183-200), so `Custom` carries just the inner type. -/
inductive DataType where
  | empty
  | value (v : ValueType)
  | functionDecl (params : List String) (declExpr : Expr) (paramSet : List (String × Expr))
  | divergent
  | custom (innerTy : DataType)
deriving Repr

/-- Constructor test for `== DataType::Divergent` (a fieldless variant, so
Rust structural equality is a tag test). -/
def DataType.isDivergentDt : DataType → Bool
  | .divergent => true
  | _ => false

/-- Constructor test for `== DataType::Value(ValueType::Bool)`. -/
def DataType.isValueBool : DataType → Bool
  | .value .bool => true
  | _ => false

/-- Rust's derived `PartialEq` on `Expr` compares through the `Rc`, hence
ignores allocation addresses: structural equality that ignores `id`.
Fuelled so that it is a plain structural recursion on `Nat`; `eqFuel`
below is far larger than any expression in this development. -/
def exprEqS : Nat → Expr → Expr → Bool
  | 0, _, _ => false
  | _ + 1, .constE _ c1, .constE _ c2 => c1 == c2
  | _ + 1, .name _ s1, .name _ s2 => s1 == s2
  | f + 1, .app _ t1 ps1, .app _ t2 ps2 =>
      exprEqS f t1 t2 && ps1.length == ps2.length &&
        (List.zip ps1 ps2).all (fun p => exprEqS f p.1 p.2)
  | f + 1, .absExpr _ ps1 b1, .absExpr _ ps2 b2 => ps1 == ps2 && exprEqS f b1 b2
  | _ + 1, .absHost _ ps1 h1, .absHost _ ps2 h2 => ps1 == ps2 && h1 == h2
  | _ + 1, .never _, .never _ => true
  | _ + 1, _, _ => false

/-- Equality of two `BTreeMap<String, Expr>` snapshots as Rust derives it:
same key/value sequences (our maps are built along identical code paths, so
association-list order agrees whenever Rust's iteration order does). -/
def subsEqS (f : Nat) : List (String × Expr) → List (String × Expr) → Bool
  | [], [] => true
  | (k1, v1) :: r1, (k2, v2) :: r2 => k1 == k2 && exprEqS f v1 v2 && subsEqS f r1 r2
  | _, _ => false

/-- Rust's `PartialEq` on `DataType` (derived, except that `Custom`
compares via `List::cdt_eq`, i.e. inner-type equality). -/
def dtEq : Nat → DataType → DataType → Bool
  | 0, _, _ => false
  | _ + 1, .empty, .empty => true
  | _ + 1, .value a, .value b => a == b
  | f + 1, .functionDecl p1 d1 s1, .functionDecl p2 d2 s2 =>
      p1 == p2 && exprEqS f d1 d2 && subsEqS f s1 s2
  | _ + 1, .divergent, .divergent => true
  | f + 1, .custom a, .custom b => dtEq f a b
  | _ + 1, _, _ => false

/-- Fuel for the structural-equality helpers; larger than every term that
occurs in this development. -/
def eqFuel : Nat := 1000

/-- `ParseError` from `src/src/error.rs`.  `fuelOut` is an artefact of the
fuelled model, never reached by the inputs below. -/
inductive ParseError where
  | invalidUtf8
  | invalidNumber
  | invalidToken
  | unexpectedEnd
  | expectingExprBegin
  | expectingExprBody
  | bracketMismatch
  | custom (s : String)
  | fuelOut
deriving DecidableEq, Repr

/-- `TypeError` from `src/src/error.rs`; `bug` models a Rust `panic`
inside the checker, `fuelOut` is the fuel artefact. -/
inductive TypeError where
  | custom (s : String)
  | bug (s : String)
  | fuelOut
deriving DecidableEq, Repr

/-- `RuntimeError` from `src/src/error.rs`; `bug` models a Rust `panic`
(`unreachable!`, index out of bounds, …), `fuelOut` is the fuel artefact. -/
inductive RuntimeError where
  | divByZero
  | custom (s : String)
  | bug (s : String)
  | fuelOut
deriving DecidableEq, Repr

/-- `BasicBinop::typeck` from `src/src/corelib.rs` lines 77-106 (shared by
`add`, `sub`, `mul`, `div`, `mod`: the method does not consult the ops).
Note the `(Int, Float) → Int` arm at lines 87-89, reproduced verbatim. -/
def basicBinopTypeck (params : List DataType) : Except TypeError DataType :=
  match params with
  | [p0, p1] =>
    if p0.isDivergentDt || p1.isDivergentDt then .ok .divergent
    else
      match p0, p1 with
      | .value .int, .value .int => .ok (.value .int)
      | .value .int, .value .float => .ok (.value .int)
      | .value .float, .value .int => .ok (.value .float)
      | .value .float, .value .float => .ok (.value .float)
      | _, _ => .error (.custom "unsupported types for binary operator")
  | _ => .error (.custom "invalid param count for binary operator")

/-- `BasicRelop::typeck` from `src/src/corelib.rs` lines 16-40 (shared by
`eq ne and or lt le gt ge`). -/
def basicRelopTypeck (params : List DataType) : Except TypeError DataType :=
  match params with
  | [p0, p1] =>
    if p0.isDivergentDt || p1.isDivergentDt then .ok .divergent
    else
      match p0, p1 with
      | .value .int, .value .int => .ok (.value .bool)
      | .value .int, .value .float => .ok (.value .bool)
      | .value .float, .value .int => .ok (.value .bool)
      | .value .float, .value .float => .ok (.value .bool)
      | .value .bool, .value .bool => .ok (.value .bool)
      | _, _ => .error (.custom "unsupported types for rel operator")
  | _ => .error (.custom "invalid param count for rel operator")

/-- `IfOp::typeck` from `src/src/corelib.rs` lines 134-162. -/
def ifOpTypeck (params : List DataType) : Except TypeError DataType :=
  match params with
  | [p0, p1, p2] =>
    if p0.isDivergentDt then .ok .divergent
    else if !p0.isValueBool then .error (.custom "if predicate must be of bool type")
    else if p1.isDivergentDt then .ok p2
    else if p2.isDivergentDt then .ok p1
    else if dtEq eqFuel p1 p2 then .ok p1
    else .error (.custom "invalid operand types for if operator")
  | _ => .error (.custom "invalid param count for if operator")

/-- Constructor test for `== DataType::Empty`. -/
def DataType.isEmptyDt : DataType → Bool
  | .empty => true
  | _ => false

/-- `ListPushOp::typeck` from `src/src/corelib.rs` lines 204-229 (out of
the normative operator set, but registered by both drivers). -/
def listPushTypeck (params : List DataType) : Except TypeError DataType :=
  match params with
  | [p0, p1] =>
    if p1.isEmptyDt then .ok (.custom p0)
    else
      match p1 with
      | .custom inner =>
          if dtEq eqFuel inner p0 then .ok (.custom inner)
          else .error (.custom "list type mismatch")
      | _ => .error (.custom "push target not list or empty")
  | _ => .error (.custom "expecting exactly 2 params")

/-- The binop names registered by `HostManager::new`
(`src/src/corelib.rs` lines 252-300). -/
def binopNames : List String := ["add", "sub", "mul", "div", "mod"]

/-- The relop names registered by `HostManager::new`
(`src/src/corelib.rs` lines 301-366). -/
def relopNames : List String := ["eq", "ne", "and", "or", "lt", "le", "gt", "ge"]

/-- Host type-check dispatch as assembled by the drivers
(`src/src/bin/xleval.rs`, `xltypeck.rs`): binops, relops, `if`, and
`list_push` from `HostManager`; an unknown name is the
"host function not found" error of `typeck.rs` lines 176-181. -/
def hostTypeck (name : String) (params : List DataType) : Except TypeError DataType :=
  if binopNames.contains name then basicBinopTypeck params
  else if relopNames.contains name then basicRelopTypeck params
  else if name == "if" then ifOpTypeck params
  else if name == "list_push" then listPushTypeck params
  else .error (.custom "host function not found")

/-- The mutable pieces of `TypeResolveState` (`src/src/typeck.rs` lines
16-21): the substitution map `subs` (a `BTreeMap<Cow<str>, Expr>`) and the
cycle-guard set `expr_reach` (a `BTreeSet<*const ExprBody>`, here a list of
node ids).  The host-function table is fixed by the drivers and lives in
`hostTypeck` above. -/
structure Trs where
  subs : List (String × Expr)
  reach : List Nat
deriving Repr

/-- `BTreeMap::get` on the substitution map. -/
def subsGet : List (String × Expr) → String → Option Expr
  | [], _ => none
  | (k, v) :: rest, key => if key == k then some v else subsGet rest key

/-- `BTreeMap::insert` (replace an existing binding, else add one). -/
def subsInsert : List (String × Expr) → String → Expr → List (String × Expr)
  | [], k, v => [(k, v)]
  | (k', v') :: rest, k, v =>
      if k == k' then (k, v) :: rest else (k', v') :: subsInsert rest k v

/-- `BTreeMap::remove`. -/
def subsRemove : List (String × Expr) → String → List (String × Expr)
  | [], _ => []
  | (k', v') :: rest, k => if k == k' then rest else (k', v') :: subsRemove rest k

/-- The sentinel produced by `never_expr()` (`typeck.rs` lines 10-14).  Its
allocation id is never consulted: callers only test the constructor. -/
def neverExpr : Expr := .never 0

/-- The loop of `TypeResolveState::resolve_name` (`typeck.rs` lines 59-79):
follow `Name → Name` chains through `subs`, tracking the visited path; a
revisited name yields the `Never` sentinel, a missing one `none`.  Each
continuing iteration adds a distinct key of `subs` to `path`, so
`subs.length + 1` fuel (see `resolveName`) can never run out; the `fuelOut`
value `none` is unreachable. -/
def resolveGo (subs : List (String × Expr)) : Nat → List String → String → Option Expr
  | 0, _, _ => none
  | fuel + 1, path, name =>
    if path.contains name then some neverExpr
    else
      match subsGet subs name with
      | none => none
      | some e =>
        match e with
        | .name _ n => resolveGo subs fuel (name :: path) n
        | _ => some e

/-- `TypeResolveState::resolve_name`. -/
def resolveName (trs : Trs) (name : String) : Option Expr :=
  resolveGo trs.subs (trs.subs.length + 1) [] name

/-- Modelled from the spec: the `Float` and `Empty` arms of the `Const`
typing rule.  The `Const` match in `src/src/typeck.rs` (lines 133-136, a
different source revision from `ast.rs`) covers only `Int` and `Bool`;
those two arms are taken from it, and the spec (§4.3: "`Const c` → the
obvious value type or `Empty`", §3: "`Empty` — the unit-like result of the
`Empty` constant") supplies the two missing arms. -/
def checkConst : ConstExpr → DataType
  | .int _ => .value .int
  | .bool _ => .value .bool
  | .float _ => .value .float
  | .empty => .empty

/-- One step of the argument-type loop of `_check_expr`'s `Apply` arm
(`typeck.rs` lines 164-169): check each argument in the current state,
short-circuiting on the first error (the `?` operator). -/
def stepParamTy (check : Expr → Trs → Except TypeError DataType × Trs)
    (acc : Except TypeError (List DataType) × Trs) (p : Expr) :
    Except TypeError (List DataType) × Trs :=
  match acc with
  | (.error e, trs) => (.error e, trs)
  | (.ok tys, trs) =>
    match check p trs with
    | (.ok ty, trs') => (.ok (tys ++ [ty]), trs')
    | (.error e, trs') => (.error e, trs')

/-- The beta step of `_check_expr`'s `Apply` arm for an `Expr` body
(`typeck.rs` lines 183-204): `mem::swap` the captured `param_set` in (lines
194-195), run `with_resolved` (lines 81-102, inlined), swap back (line
200).  The key-wise restoration done by `with_resolved` is computed and
then — exactly as in the source — discarded wholesale by the second
`mem::swap`, which reinstates the caller's map. -/
def checkBeta (check : Expr → Trs → Except TypeError DataType × Trs)
    (paramSet : List (String × Expr)) (fparams : List String)
    (aparams : List Expr) (bodyE : Expr) (trs2 : Trs) :
    Except TypeError DataType × Trs :=
  let resolved := List.zip fparams aparams
  let savedSubs := trs2.subs
  let trs3 : Trs := { trs2 with subs := paramSet }
  let old := resolved.map (fun kv => (kv.1, subsGet trs3.subs kv.1))
  let trs4 : Trs :=
    { trs3 with
      subs := resolved.foldl (fun s kv => subsInsert s kv.1 kv.2) trs3.subs }
  let res := check bodyE trs4
  let restoredSubs := old.foldl
    (fun s ko =>
      match ko.2 with
      | some v => subsInsert s ko.1 v
      | none => subsRemove s ko.1) res.2.subs
  let _ := restoredSubs
  (res.1, { res.2 with subs := savedSubs })

/-- Dispatch on the type of the (already checked) application target
(`typeck.rs` lines 158-219): a `FunctionDecl` checks the arguments and
enters the host or beta path, anything else accepts only an empty argument
list. -/
def checkAppTail (check : Expr → Trs → Except TypeError DataType × Trs)
    (targetTy : DataType) (aparams : List Expr) (trs1 : Trs) :
    Except TypeError DataType × Trs :=
  match targetTy with
  | .functionDecl fparams declExpr paramSet =>
    (match aparams.foldl (stepParamTy check) (.ok [], trs1) with
     | (.error err, trs2) => (.error err, trs2)
     | (.ok paramTypes, trs2) =>
       match declExpr with
       | .absHost _ _ host => (hostTypeck host paramTypes, trs2)
       | .absExpr _ _ bodyE =>
         if fparams.length != aparams.length then
           (.error (.custom "param count mismatch"), trs2)
         else checkBeta check paramSet fparams aparams bodyE trs2
       | _ => (.error (.bug "bug: invalid decl expr"), trs2))
  | _ =>
    if aparams.length != 0 then
      (.error (.custom "cannot apply with params on non-function value"), trs1)
    else (.ok targetTy, trs1)

/-- Check the (already name-resolved) application target and dispatch on
its type (`typeck.rs` line 155 followed by lines 158-219). -/
def checkAppFrom (check : Expr → Trs → Except TypeError DataType × Trs)
    (applyTarget : Expr) (aparams : List Expr) (trsIn : Trs) :
    Except TypeError DataType × Trs :=
  match check applyTarget trsIn with
  | (.error err, trs1) => (.error err, trs1)
  | (.ok targetTy, trs1) => checkAppTail check targetTy aparams trs1

/-- The body of `_check_expr` (`typeck.rs` lines 122-230), parameterised
by the recursive call `check` so that the fuelled recursion below stays
structural and proofs can reason per arm. -/
def checkBody (check : Expr → Trs → Except TypeError DataType × Trs)
    (e : Expr) (trsIn : Trs) : Except TypeError DataType × Trs :=
  match e with
  | .name _ n =>
    (match resolveName trsIn n with
     | some e' =>
       if e'.isNeverE then (.ok .divergent, trsIn)
       else check e' trsIn
     | none => (.error (.custom "cannot resolve name"), trsIn))
  | .constE _ c => (.ok (checkConst c), trsIn)
  | .app _ target aparams =>
    let resolvedTarget : Except TypeError (Option Expr) :=
      match target with
      | .name _ n =>
        (match resolveName trsIn n with
         | some e' => if e'.isNeverE then .ok none else .ok (some e')
         | none => .error (.custom "cannot resolve name"))
      | _ => .ok (some target)
    (match resolvedTarget with
     | .error err => (.error err, trsIn)
     | .ok none => (.ok .divergent, trsIn)
     | .ok (some applyTarget) => checkAppFrom check applyTarget aparams trsIn)
  | .absExpr _ ps _ => (.ok (.functionDecl ps e trsIn.subs), trsIn)
  | .absHost _ ps _ => (.ok (.functionDecl ps e trsIn.subs), trsIn)
  | .never _ => (.error (.custom "unexpected never expr"), trsIn)

/-- `check_expr` / `_check_expr` from `src/src/typeck.rs` lines 105-231.
The `_guard` acquired on entry (`guarded_expr_reach`, lines 37-50) inserts
the node id into `reach` and its `Drop` (lines 28-34) removes it on every
exit path; here the insert/erase pair brackets `checkBody`.  The recursion
is fuelled: every recursive call steps `fuel` down by one, so the
definition is a structural recursion on `Nat` and computes by kernel
reduction. -/
def checkExpr (fuel : Nat) (e : Expr) (trs : Trs) : Except TypeError DataType × Trs :=
  match fuel with
  | 0 => (.error .fuelOut, trs)
  | f + 1 =>
    let i := e.exprId
    if trs.reach.contains i then (.ok .divergent, trs)
    else
      let trsIn : Trs := { trs with reach := i :: trs.reach }
      let body := checkBody (fun e' trs' => checkExpr f e' trs') e trsIn
      (body.1, { body.2 with reach := body.2.reach.erase i })

/-- `RenameContext::with_renamed`'s increment step (`src/src/ast.rs` lines
77-87): each formal's counter is bumped (a missing counter starts at 0, so
`insert 1` and `*c += 1` coincide).  No counter is ever restored: the
method runs `f` and returns. -/
def bumpAll (ctx : String → Nat) (renames : List String) : String → Nat :=
  renames.foldl (fun c v => fun t => if t == v then c v + 1 else c t) ctx

/-- `RenameContext::get_renamed` (`src/src/ast.rs` lines 89-94): counter 0
means the name was never bound. -/
def getRenamed (ctx : String → Nat) (k : String) : Except ParseError String :=
  if ctx k == 0 then .error (.custom ("name not found: " ++ k))
  else .ok (k ++ "#" ++ toString (ctx k))

/-- The fold over `Apply` parameters inside `rename_expr` (threading the
rename state, the fresh-id counter and the error short-circuit). -/
def stepRename (ren : Expr → (String → Nat) → Nat →
      Except ParseError (Expr × (String → Nat) × Nat))
    (acc : Except ParseError (List Expr × (String → Nat) × Nat)) (p : Expr) :
    Except ParseError (List Expr × (String → Nat) × Nat) :=
  match acc with
  | .error e => .error e
  | .ok (done, ctx, nid) =>
    match ren p ctx nid with
    | .error e => .error e
    | .ok (p', ctx', nid') => .ok (done ++ [p'], ctx', nid')

/-- `rename_expr` from `src/src/ast.rs` lines 97-135, fuelled.  `Const`
keeps its id (the code clones the existing `Rc` body); `Name`, `Apply` and
`Abstract` are rebuilt with `Rc::new`, modelled by a fresh id from the
threaded counter `nid`.  The rename state is threaded through and — per
`with_renamed` — never rolled back when an `Abstract` is left. -/
def renameExpr : Nat → Expr → (String → Nat) → Nat →
    Except ParseError (Expr × (String → Nat) × Nat)
  | 0, _, _, _ => .error .fuelOut
  | _ + 1, .constE i c, ctx, nid => .ok (.constE i c, ctx, nid)
  | _ + 1, .name _ n, ctx, nid =>
    (match getRenamed ctx n with
     | .error e => .error e
     | .ok n' => .ok (.name nid n', ctx, nid + 1))
  | f + 1, .app _ target ps, ctx, nid =>
    (match renameExpr f target ctx nid with
     | .error e => .error e
     | .ok (target', ctx1, nid1) =>
       match ps.foldl (stepRename (renameExpr f)) (.ok ([], ctx1, nid1)) with
       | .error e => .error e
       | .ok (ps', ctx2, nid2) => .ok (.app nid2 target' ps', ctx2, nid2 + 1))
  | f + 1, .absExpr _ ps body, ctx, nid =>
    let ctx1 := bumpAll ctx ps
    (match ps.foldl
        (fun acc p =>
          match acc with
          | .error e => .error e
          | .ok done =>
            match getRenamed ctx1 p with
            | .error e => .error e
            | .ok p' => .ok (done ++ [p']))
        (.ok [] : Except ParseError (List String)) with
     | .error e => .error e
     | .ok ps' =>
       match renameExpr f body ctx1 nid with
       | .error e => .error e
       | .ok (body', ctx2, nid1) => .ok (.absExpr nid1 ps' body', ctx2, nid1 + 1))
  | _ + 1, .absHost _ ps host, ctx, nid =>
    let ctx1 := bumpAll ctx ps
    (match ps.foldl
        (fun acc p =>
          match acc with
          | .error e => .error e
          | .ok done =>
            match getRenamed ctx1 p with
            | .error e => .error e
            | .ok p' => .ok (done ++ [p']))
        (.ok [] : Except ParseError (List String)) with
     | .error e => .error e
     | .ok ps' => .ok (.absHost nid ps' host, ctx1, nid + 1))
  | _ + 1, .never _, _, _ => .error (.custom "never type not expected in ast")

/-- `Token` from `src/src/parser.rs` lines 10-20 (float literals carry the
rational reading of the decimal text; IEEE rounding is outside every
claim). -/
inductive Token where
  | exprBegin
  | exprEnd
  | lambda
  | identifier (s : String)
  | hostFunction (s : String)
  | emptyLiteral
  | intLiteral (i : Int)
  | floatLiteral (f : Rat)
deriving DecidableEq, Repr

/-- `u8::is_ascii_whitespace` (space, tab, line feed, form feed, carriage
return). -/
def isWs (c : Char) : Bool :=
  c == ' ' || c == '\t' || c == '\n' || c == '\r' || c == Char.ofNat 12

/-- `is_ascii_alphanumeric(x) || x == b'_'`, the identifier/host-name body
predicate. -/
def isIdentChar (c : Char) : Bool :=
  (c.isAlphanum && c.toNat < 128) || c == '_'

/-- `token_end` from `src/src/parser.rs` lines 22-29: the first position at
or after `b` whose character satisfies `p`, else the input length. -/
def tokenEnd (raw : List Char) (b : Nat) (p : Char → Bool) : Nat :=
  match (raw.drop b).findIdx? p with
  | some i => b + i
  | none => raw.length

/-- The slice `raw[a..b]` as a string. -/
def sliceStr (raw : List Char) (a b : Nat) : String :=
  String.mk ((raw.drop a).take (b - a))

/-- Decimal reading of a digit run. -/
def digitsToNat (cs : List Char) : Nat :=
  cs.foldl (fun acc c => acc * 10 + (c.toNat - '0'.toNat)) 0

/-- The number branch of `next_token` (`parser.rs` lines 76-92): the run
`raw[start..e]` of digits and dots parses as `f64` when it contains `'.'`
(at most one dot, mirroring `str::parse::<f64>`), else as `i64`
(overflow is outside every claim). -/
def parseNumber (cs : List Char) : Except ParseError Token :=
  if cs.any (fun c => c == '.') then
    match cs.splitOn '.' with
    | [ip, fp] =>
        if ip.all Char.isDigit && fp.all Char.isDigit then
          .ok (.floatLiteral ((digitsToNat ip : Rat) +
            (digitsToNat fp : Rat) / ((10 : Rat) ^ fp.length)))
        else .error .invalidNumber
    | _ => .error .invalidNumber
  else .ok (.intLiteral (digitsToNat cs))

/-- `TokenStream::next_token` from `src/src/parser.rs` lines 39-101,
fuelled (the recursion skips comments and whitespace, strictly advancing
`pos`, so `raw.length + 1` fuel always suffices).  The source is a char
list; the byte-level `InvalidUtf8` error cannot arise on the ASCII claim
inputs and is not modelled. -/
def nextToken (raw : List Char) : Nat → Nat → Except ParseError (Token × Nat)
  | 0, _ => .error .fuelOut
  | f + 1, pos =>
    match raw.get? pos with
    | none => .error .unexpectedEnd
    | some ch =>
      let pos1 := pos + 1
      if ch == '(' then .ok (.exprBegin, pos1)
      else if ch == ')' then .ok (.exprEnd, pos1)
      else if ch == '\\' then .ok (.lambda, pos1)
      else if ch == '~' then .ok (.emptyLiteral, pos1)
      else if ch == '$' then
        let e := tokenEnd raw pos1 (fun x => !isIdentChar x)
        .ok (.hostFunction (sliceStr raw pos1 e), e)
      else if ch == '#' then
        nextToken raw f (tokenEnd raw pos1 (fun x => x == '\r' || x == '\n'))
      else if (ch.isAlpha && ch.toNat < 128) || ch == '_' then
        let e := tokenEnd raw pos1 (fun x => !isIdentChar x)
        .ok (.identifier (sliceStr raw pos e), e)
      else if ch.isDigit then
        let e := tokenEnd raw pos1 (fun x => !x.isDigit && x != '.')
        (match parseNumber ((raw.drop pos).take (e - pos)) with
         | .ok t => .ok (t, e)
         | .error err => .error err)
      else if isWs ch then
        nextToken raw f (tokenEnd raw pos1 (fun x => !isWs x))
      else .error .invalidToken

/-- The parameter-collecting loop of the `Lambda` branch (`parser.rs` lines
143-151): read identifiers until some other token arrives. -/
def readParams (raw : List Char) : Nat → Nat → List String →
    Except ParseError (List String × Token × Nat)
  | 0, _, _ => .error .fuelOut
  | f + 1, pos, acc =>
    match nextToken raw (raw.length + 1) pos with
    | .error e => .error e
    | .ok (.identifier id, pos') => readParams raw f pos' (acc ++ [id])
    | .ok (tk, pos') => .ok (acc, tk, pos')

/-- `_parse_expr` from `src/src/parser.rs` lines 118-190, fuelled; the
loop accumulating `apply_target` / `apply_params` becomes recursion
(`tgt = none` until the first sub-term arrives).  Fresh node ids come from
the threaded counter `nid`, one per `Rc::new`. -/
def parseLoop (raw : List Char) : Nat → Nat → Option Expr → List Expr → Nat →
    Except ParseError (Expr × Nat × Nat)
  | 0, _, _, _, _ => .error .fuelOut
  | f + 1, pos, tgt, acc, nid =>
    match nextToken raw (raw.length + 1) pos with
    | .error e => .error e
    | .ok (tk, pos') =>
      let push : Expr → Nat → Nat → Except ParseError (Expr × Nat × Nat) :=
        fun e pos'' nid' =>
          match tgt with
          | none => parseLoop raw f pos'' (some e) acc nid'
          | some t => parseLoop raw f pos'' (some t) (acc ++ [e]) nid'
      match tk with
      | .identifier id =>
        if id == "true" then push (.constE nid (.bool true)) pos' (nid + 1)
        else if id == "false" then push (.constE nid (.bool false)) pos' (nid + 1)
        else push (.name nid id) pos' (nid + 1)
      | .emptyLiteral => push (.constE nid .empty) pos' (nid + 1)
      | .intLiteral v => push (.constE nid (.int v)) pos' (nid + 1)
      | .floatLiteral v => push (.constE nid (.float v)) pos' (nid + 1)
      | .exprBegin =>
        (match parseLoop raw f pos' none [] nid with
         | .error e => .error e
         | .ok (e, pos'', nid') => push e pos'' nid')
      | .lambda =>
        (match readParams raw (raw.length + 1) pos' [] with
         | .error e => .error e
         | .ok (paramNames, endTk, pos'') =>
           if endTk != Token.exprBegin then .error .expectingExprBegin
           else
             match parseLoop raw f pos'' none [] nid with
             | .error e => .error e
             | .ok (body, pos3, nid') =>
               push (.absExpr nid' paramNames body) pos3 (nid' + 1))
      | .hostFunction hname => push (.absHost nid [] hname) pos' (nid + 1)
      | .exprEnd =>
        match tgt with
        | none => .error .expectingExprBody
        | some t =>
          if acc.length == 0 then .ok (t, pos', nid)
          else .ok (.app nid t acc, pos', nid + 1)

/-- `parse_expr` from `src/src/parser.rs` lines 104-116: expect `(`, parse
the body, rename, and reject trailing non-whitespace (the `BracketMismatch`
test runs after the rename is computed, taking precedence over its
errors, as in the source). -/
def parseExpr (src : String) : Except ParseError Expr :=
  let raw := src.toList
  match nextToken raw (raw.length + 1) 0 with
  | .error e => .error e
  | .ok (.exprBegin, pos) =>
    (match parseLoop raw (2 * raw.length + 4) pos none [] 1 with
     | .error e => .error e
     | .ok (e, pos', nid) =>
       let ret :=
         match renameExpr (2 * raw.length + 4) e (fun _ => 0) nid with
         | .error err => .error err
         | .ok (e', _, _) => .ok e'
       if tokenEnd raw pos' (fun x => !isWs x) != raw.length then
         .error .bracketMismatch
       else ret)
  | .ok (_, _) => .error .expectingExprBegin

/-- `RuntimeValue` from `src/src/eval.rs` lines 12-25.  `func` carries the
environment snapshot (`context_values`); environments map renamed names to
thunk ids.  The `Custom` variant is dead code for the registered hosts and
is omitted. -/
inductive RuntimeValue where
  | empty
  | int (i : Int)
  | float (f : Rat)
  | bool (b : Bool)
  | func (params : List String) (body : Expr) (ctxValues : List (String × Nat))
  | host (name : String)
deriving Repr

/-- A `LazyValue` allocation (`eval.rs` lines 52-57): the expression to
force, the environment captured at creation, and the once-writable memo
slot (`outcome : Rc<RefCell<Option<RuntimeValue>>>`).  `LazyValue` clones
share the slot; in the model a `LazyValue` is just the id (list index) of
its allocation. -/
structure ThunkCell where
  texpr : Expr
  tenv : List (String × Nat)
  outcome : Option RuntimeValue
deriving Repr

/-- The evaluator state: `EvalContext::values` plus the heap of thunk
allocations (the `Rc<RefCell<…>>` cells), plus a ghost counter of
`_do_eval_expr` entries used to express "the expression is not evaluated
again" (the Slab slot pool of `eval.rs` is never used by the registered
hosts and is omitted). -/
structure EvalSt where
  values : List (String × Nat)
  thunks : List ThunkCell
  evalCount : Nat
deriving Repr

/-- `RedBlackTreeMap::insert` on environments: functional insert; lookup
takes the most recent binding. -/
def envInsert (env : List (String × Nat)) (k : String) (v : Nat) : List (String × Nat) :=
  (k, v) :: env

/-- `RedBlackTreeMap::get`. -/
def envGet : List (String × Nat) → String → Option Nat
  | [], _ => none
  | (k, v) :: rest, key => if key == k then some v else envGet rest key

/-- Allocate a fresh `LazyValue` with an empty memo slot
(`Rc::new(RefCell::new(None))`). -/
def allocThunk (s : EvalSt) (e : Expr) (env : List (String × Nat)) : Nat × EvalSt :=
  (s.thunks.length, { s with thunks := s.thunks ++ [⟨e, env, none⟩] })

/-- Write the memo slot of thunk `tid` (`*outcome = Some(ret.clone())`). -/
def setOutcome (s : EvalSt) (tid : Nat) (v : RuntimeValue) : EvalSt :=
  match s.thunks.get? tid with
  | none => s
  | some th => { s with thunks := s.thunks.set tid { th with outcome := some v } }

/-- The argument-binding loop of the closure-application path
(`eval.rs` lines 148-157): for each argument expression, allocate a thunk
capturing the caller environment `callerEnv` and insert it into the
closure environment under the matching formal (`params[i]`); an argument
beyond the formals indexes out of bounds, a Rust panic. -/
def bindArgs (callerEnv : List (String × Nat)) : List String → List Expr →
    List (String × Nat) → EvalSt → Except RuntimeError (List (String × Nat)) × EvalSt
  | _, [], env, s => (.ok env, s)
  | [], _ :: _, _, s => (.error (.bug "index out of bounds"), s)
  | fp :: fps, a :: as', env, s =>
    let (tid, s1) := allocThunk s a callerEnv
    bindArgs callerEnv fps as' (envInsert env fp tid) s1

/-- Allocate host-call argument thunks (`eval.rs` lines 170-178): each
captures the caller values snapshot.  (The Rust iterator allocates on
demand; eager allocation differs only by unused cells in the heap.) -/
def allocArgs (env : List (String × Nat)) : List Expr → EvalSt → List Nat × EvalSt
  | [], s => ([], s)
  | a :: as', s =>
    let (tid, s1) := allocThunk s a env
    let (tids, s2) := allocArgs env as' s1
    (tid :: tids, s2)

/-- The `int_op` table of `HostManager::new` (`corelib.rs` lines 252-300):
`div`/`mod` by zero are `DivByZero`; Rust `i64` `/` and `%` truncate. -/
def binopIntOp (name : String) (a b : Int) : Except RuntimeError Int :=
  if name == "add" then .ok (a + b)
  else if name == "sub" then .ok (a - b)
  else if name == "mul" then .ok (a * b)
  else if name == "div" then if b == 0 then .error .divByZero else .ok (a.tdiv b)
  else if name == "mod" then if b == 0 then .error .divByZero else .ok (a.tmod b)
  else .error (.bug "unknown binop")

/-- The `float_op` table of the binops: total float arithmetic (for `div`
the rational model returns 0 at a zero divisor where IEEE gives ±inf/NaN;
no claim touches float division, and `mod` follows truncation). -/
def binopFloatOp (name : String) (a b : Rat) : Except RuntimeError Rat :=
  if name == "add" then .ok (a + b)
  else if name == "sub" then .ok (a - b)
  else if name == "mul" then .ok (a * b)
  else if name == "div" then .ok (a / b)
  else if name == "mod" then .ok (a - b * ((a / b).floor : Rat))
  else .error (.bug "unknown binop")

/-- The `int_op` table of the relops (`corelib.rs` lines 301-366); `and` /
`or` truthify by `!= 0`. -/
def relopIntOp (name : String) (a b : Int) : Except RuntimeError Bool :=
  if name == "eq" then .ok (a == b)
  else if name == "ne" then .ok (a != b)
  else if name == "and" then .ok (a != 0 && b != 0)
  else if name == "or" then .ok (a != 0 || b != 0)
  else if name == "lt" then .ok (a < b)
  else if name == "le" then .ok (a ≤ b)
  else if name == "gt" then .ok (a > b)
  else if name == "ge" then .ok (a ≥ b)
  else .error (.bug "unknown relop")

/-- The `float_op` table of the relops. -/
def relopFloatOp (name : String) (a b : Rat) : Except RuntimeError Bool :=
  if name == "eq" then .ok (a == b)
  else if name == "ne" then .ok (a != b)
  else if name == "and" then .ok (a != 0 && b != 0)
  else if name == "or" then .ok (a != 0 || b != 0)
  else if name == "lt" then .ok (a < b)
  else if name == "le" then .ok (a ≤ b)
  else if name == "gt" then .ok (a > b)
  else if name == "ge" then .ok (a ≥ b)
  else .error (.bug "unknown relop")

/-- The `bool_op` table of the relops (Rust orders `bool` with
`false < true`). -/
def relopBoolOp (name : String) (a b : Bool) : Except RuntimeError Bool :=
  if name == "eq" then .ok (a == b)
  else if name == "ne" then .ok (a != b)
  else if name == "and" then .ok (a && b)
  else if name == "or" then .ok (a || b)
  else if name == "lt" then .ok (!a && b)
  else if name == "le" then .ok (!a || b)
  else if name == "gt" then .ok (a && !b)
  else if name == "ge" then .ok (a || !b)
  else .error (.bug "unknown relop")

/-- A request to the evaluator: evaluate an expression
(`_do_eval_expr`), force a thunk (`LazyValue::eval`), or run a host
function's `eval` on argument thunks.  Bundling the three mutually
recursive operations into one fuel-indexed function keeps the recursion
structural on `Nat`, so everything computes by kernel reduction. -/
inductive EvalReq where
  | ev (e : Expr)
  | force (tid : Nat)
  | host (name : String) (args : List Nat)

/-- The evaluator of `src/src/eval.rs` (lines 109-228) together with the
host `eval` methods of `src/src/corelib.rs`:

* `.ev e` is `_do_eval_expr` (the `eval_expr` wrapper only drains the
  unused slot pool).  It bumps the ghost `evalCount`.
* `.force tid` is `LazyValue::eval` (lines 207-228): a filled memo slot
  returns its value with the state untouched; otherwise the captured
  environment is swapped in, the expression evaluated, the environment
  swapped back, and on success the slot is written.
* `.host name args` dispatches as `EvalContext::host_functions` is filled
  by `xleval.rs`: `BasicBinop::eval` / `BasicRelop::eval` force both
  operands in order before combining; `IfOp::eval` forces the predicate
  and then exactly one branch; `ListPushOp::eval` forces both operands
  and then `panic!()`s (`corelib.rs` line 238). -/
def evalGo : Nat → EvalReq → EvalSt → Except RuntimeError RuntimeValue × EvalSt
  | 0, _, s => (.error .fuelOut, s)
  | f + 1, .ev e, s0 =>
    let s := { s0 with evalCount := s0.evalCount + 1 }
    match e with
    | .absExpr _ ps body => (.ok (.func ps body s.values), s)
    | .absHost _ _ hname => (.ok (.host hname), s)
    | .constE _ c =>
      (match c with
       | .bool v => (.ok (.bool v), s)
       | .int v => (.ok (.int v), s)
       | .float v => (.ok (.float v), s)
       | .empty => (.ok .empty, s))
    | .name _ n =>
      (match envGet s.values n with
       | none => (.error (.bug "name not found"), s)
       | some tid => evalGo f (.force tid) s)
    | .never _ => (.error (.bug "unreachable"), s)
    | .app _ target aparams =>
      match evalGo f (.ev target) s with
      | (.error err, s1) => (.error err, s1)
      | (.ok tv, s1) =>
        match tv with
        | .func fparams body ctxValues =>
          (match bindArgs s1.values fparams aparams ctxValues s1 with
           | (.error err, s2) => (.error err, s2)
           | (.ok extendedEnv, s2) =>
             let callerValues := s2.values
             let s3 := { s2 with values := extendedEnv }
             let (r, s4) := evalGo f (.ev body) s3
             (r, { s4 with values := callerValues }))
        | .host hname =>
          let (tids, s2) := allocArgs s1.values aparams s1
          evalGo f (.host hname tids) s2
        | _ =>
          if aparams.length == 0 then (.ok tv, s1)
          else (.error (.bug "type mismatch"), s1)
  | f + 1, .force tid, s =>
    (match s.thunks.get? tid with
     | none => (.error (.bug "dangling thunk"), s)
     | some th =>
       match th.outcome with
       | some v => (.ok v, s)
       | none =>
         let savedValues := s.values
         let s1 := { s with values := th.tenv }
         let (r, s2) := evalGo f (.ev th.texpr) s1
         let s3 := { s2 with values := savedValues }
         match r with
         | .error err => (.error err, s3)
         | .ok v => (.ok v, setOutcome s3 tid v))
  | f + 1, .host name args, s =>
    if binopNames.contains name then
      match args with
      | t1 :: t2 :: _ =>
        (match evalGo f (.force t1) s with
         | (.error err, s1) => (.error err, s1)
         | (.ok left, s1) =>
           match evalGo f (.force t2) s1 with
           | (.error err, s2) => (.error err, s2)
           | (.ok right, s2) =>
             match left, right with
             | .int a, .int b =>
               (match binopIntOp name a b with
                | .ok v => (.ok (.int v), s2)
                | .error err => (.error err, s2))
             | .int a, .float b =>
               (match binopFloatOp name (a : Rat) b with
                | .ok v => (.ok (.float v), s2)
                | .error err => (.error err, s2))
             | .float a, .int b =>
               (match binopFloatOp name a (b : Rat) with
                | .ok v => (.ok (.float v), s2)
                | .error err => (.error err, s2))
             | .float a, .float b =>
               (match binopFloatOp name a b with
                | .ok v => (.ok (.float v), s2)
                | .error err => (.error err, s2))
             | _, _ => (.error (.bug "unreachable"), s2))
      | _ => (.error (.bug "missing host argument"), s)
    else if relopNames.contains name then
      match args with
      | t1 :: t2 :: _ =>
        (match evalGo f (.force t1) s with
         | (.error err, s1) => (.error err, s1)
         | (.ok left, s1) =>
           match evalGo f (.force t2) s1 with
           | (.error err, s2) => (.error err, s2)
           | (.ok right, s2) =>
             match left, right with
             | .int a, .int b =>
               (match relopIntOp name a b with
                | .ok v => (.ok (.bool v), s2)
                | .error err => (.error err, s2))
             | .int a, .float b =>
               (match relopFloatOp name (a : Rat) b with
                | .ok v => (.ok (.bool v), s2)
                | .error err => (.error err, s2))
             | .float a, .int b =>
               (match relopFloatOp name a (b : Rat) with
                | .ok v => (.ok (.bool v), s2)
                | .error err => (.error err, s2))
             | .float a, .float b =>
               (match relopFloatOp name a b with
                | .ok v => (.ok (.bool v), s2)
                | .error err => (.error err, s2))
             | .bool a, .bool b =>
               (match relopBoolOp name a b with
                | .ok v => (.ok (.bool v), s2)
                | .error err => (.error err, s2))
             | _, _ => (.error (.bug "unreachable"), s2))
      | _ => (.error (.bug "missing host argument"), s)
    else if name == "if" then
      match args with
      | tp :: rest =>
        (match evalGo f (.force tp) s with
         | (.error err, s1) => (.error err, s1)
         | (.ok pv, s1) =>
           match pv with
           | .bool b =>
             (match (if b then rest.get? 0 else rest.get? 1) with
              | some tb => evalGo f (.force tb) s1
              | none => (.error (.bug "missing host argument"), s1))
           | _ => (.error (.bug "bug: type mismatch"), s1))
      | _ => (.error (.bug "missing host argument"), s)
    else if name == "list_push" then
      match args with
      | t1 :: t2 :: _ =>
        (match evalGo f (.force t1) s with
         | (.error err, s1) => (.error err, s1)
         | (.ok _, s1) =>
           match evalGo f (.force t2) s1 with
           | (.error err, s2) => (.error err, s2)
           | (.ok _, s2) => (.error (.bug "list push unimplemented"), s2))
      | _ => (.error (.bug "missing host argument"), s)
    else (.error (.bug "host function not found"), s)

/-- Fuel that every concrete program in this development stays far below
(the deepest check/evaluation trace here is under twenty frames). -/
def checkFuel : Nat := 64

/-- The empty checker state of `TypeResolveState::default()`. -/
def emptyTrs : Trs := ⟨[], []⟩

/-- The empty evaluator state of `EvalContext::default()`. -/
def emptyEvalSt : EvalSt := ⟨[], [], 0⟩

/-- Parse + type-check, as both drivers do (`xleval.rs`, `xltypeck.rs`):
`none` when parsing fails, otherwise the checker's verdict on the renamed
AST. -/
def typecheckProgram (s : String) : Option (Except TypeError DataType) :=
  match parseExpr s with
  | .ok e => some (checkExpr checkFuel e emptyTrs).1
  | .error _ => none

/-- The successfully computed root type, if any. -/
def checkedRoot (s : String) : Option DataType :=
  match typecheckProgram s with
  | some (.ok d) => some d
  | _ => none

/-- Whether `xleval.rs` reaches its `eval_expr` call on this source text:
parse and type-check must succeed (failures `unwrap`-panic) and the root
type must not be `Divergent` (the driver panics with "your program will
never terminate" when it is). -/
def driverEvaluates (s : String) : Bool :=
  match checkedRoot s with
  | some d => !d.isDivergentDt
  | none => false

/-- Parse + evaluate (the `eval_expr(&ast, &mut ectx)` call of
`xleval.rs`); `none` when parsing fails. -/
def evalProgram (s : String) : Option (Except RuntimeError RuntimeValue) :=
  match parseExpr s with
  | .ok e => some (evalGo checkFuel (.ev e) emptyEvalSt).1
  | .error _ => none

/-- The renamed AST of `((\loop (loop loop)) (\loop (loop loop)))` — the
self-application that actually diverges — exactly as `parseExpr` produces
it (ids included). -/
def omegaExpr : Expr :=
  .app 18
    (.absExpr 13 ["loop#1"] (.app 12 (.name 10 "loop#1") [.name 11 "loop#1"]))
    [.absExpr 17 ["loop#2"] (.app 16 (.name 14 "loop#2") [.name 15 "loop#2"])]

/-- The divergent self-application applied to one further argument:
`Apply { target = omegaExpr, params = [Const 1] }` (fresh ids). -/
def applyOmega : Expr := .app 100 omegaExpr [.constE 101 (.int 1)]

/-- Follows the claim's (and spec §4.2's) wording for the `if` host's
type check, as a comparison point for `ifOpTypeck`: `Divergent` predicate →
`Divergent`; non-`Bool` predicate → type error (`none`); exactly one
`Divergent` branch → the other branch's type; equal branches → that type;
both concrete but different → type error. -/
def specIfResult (p t e : DataType) : Option DataType :=
  if p.isDivergentDt then some .divergent
  else if !p.isValueBool then none
  else if t.isDivergentDt && !e.isDivergentDt then some e
  else if e.isDivergentDt && !t.isDivergentDt then some t
  else if dtEq eqFuel t e then some t
  else none

/-- An evaluator state holding two fresh thunks over `Const 5` and
`Const 0`. -/
def divZeroSt : EvalSt :=
  ⟨[], [⟨.constE 1 (.int 5), [], none⟩, ⟨.constE 2 (.int 0), [], none⟩], 0⟩

/-- An evaluator state holding a thunk over `Const false` and one over the
erroring application `($div 1 0)`. -/
def andOrSt : EvalSt :=
  ⟨[], [⟨.constE 1 (.bool false), [], none⟩,
        ⟨.app 2 (.absHost 3 [] "div") [.constE 4 (.int 1), .constE 5 (.int 0)],
         [], none⟩], 0⟩

/-- An evaluator state whose single thunk has its memo slot filled. -/
def memoSt : EvalSt := ⟨[], [⟨.constE 1 (.int 7), [], some (.int 7)⟩], 0⟩

/-- An evaluator state whose single thunk is not yet forced. -/
def freshSt : EvalSt := ⟨[], [⟨.constE 1 (.int 7), [], none⟩], 0⟩

/-- C1: the type checker maps the operand pair `(Int, Float)` of the
arithmetic binops to `Int` (`corelib.rs` lines 87-89), while the very same
operators' `eval` (lines 117-119) produces a `Float` runtime value for an
`Int`/`Float` operand pair — here `add` on `Int 2` and `Float 3/2` yields
`Float 7/2`.  The claim (and the spec's normative rule int×int→int, any
other combination→float) says the static type should be `Float`; the code
returns `Int` and thereby contradicts its own runtime. -/
theorem c1_binop_int_float_typeck_is_int_but_eval_is_float :
    hostTypeck "add" [.value .int, .value .float] = .ok (.value .int) ∧
    basicBinopTypeck [.value .int, .value .float] = .ok (.value .int) ∧
    (evalGo 4 (.host "add" [0, 1])
        ⟨[], [⟨.constE 1 (.int 2), [], none⟩, ⟨.constE 2 (.float (3 / 2)), [], none⟩],
          0⟩).1 =
      .ok (.float (((2 : Int) : Rat) + 3 / 2)) ∧
    dtEq eqFuel (.value .int) (.value .float) = false :=
  ⟨rfl, rfl, rfl, rfl⟩

/-- C2 counterexample: `((\loop (loop)) (\loop (loop)))` parses
successfully, but its root type is not `Divergent` (a parenthesised body
with exactly one sub-term is just that term — `parser.rs` lines 176-186 —
so `(loop)` is the bare name `loop` and the program is the identity
applied to the identity), and the `xleval` driver therefore proceeds to
evaluation instead of refusing. -/
theorem c2_scenario6_program_is_not_divergent :
    (checkedRoot "((\\loop (loop)) (\\loop (loop)))").map DataType.isDivergentDt =
        some false ∧
    driverEvaluates "((\\loop (loop)) (\\loop (loop)))" = true := ⟨rfl, rfl⟩

/-- C2 amended: `((\loop (loop)) (\loop (loop)))` parses and checks to a
`FunctionDecl` (it reduces to the identity `\loop (loop)`), so the driver
evaluates it; the genuinely self-applying variant
`((\loop (loop loop)) (\loop (loop loop)))` checks to `Divergent` and the
driver refuses to evaluate that one. -/
theorem c2_identity_types_function_and_self_application_diverges :
    checkedRoot "((\\loop (loop)) (\\loop (loop)))" =
        some (.functionDecl ["loop#2"]
          (.absExpr 9 ["loop#2"] (.name 8 "loop#2"))
          [("loop#1", .absExpr 9 ["loop#2"] (.name 8 "loop#2"))]) ∧
    checkedRoot "((\\loop (loop loop)) (\\loop (loop loop)))" = some .divergent ∧
    driverEvaluates "((\\loop (loop loop)) (\\loop (loop loop)))" = false :=
  ⟨rfl, rfl, rfl⟩

/-- C3 counterexample: in `(\x ((\x (x)) x))` the final `x` sits after a
sibling `Abstract` that rebinds `x`; its own binder is the outer lambda
(renamed `x#1`), yet the renamer maps it to `x#2` — the sibling's counter —
because `with_renamed` (`ast.rs` lines 77-87) never restores counters on
exit.  Under the claim ("on exiting the Abstract the counters are
restored") it would have renamed to `x#1`. -/
theorem c3_name_after_sibling_abstract_gets_sibling_counter :
    parseExpr "(\\x ((\\x (x)) x))" =
        .ok (.absExpr 10 ["x#1"]
          (.app 9 (.absExpr 7 ["x#2"] (.name 6 "x#2")) [.name 8 "x#2"])) ∧
    ("x#2" == "x#1") = false := ⟨rfl, rfl⟩

/-- C3 amended: entering an `Abstract` increments the counter of each
formal parameter and every `Name` inside the abstraction renames to
`base#c(base)` with the current counter, but on exit the counters keep
their incremented values (the rename state threads on, nothing is
restored); consequently a `Name` occurring after a sibling `Abstract` that
rebinds the same base renames to the sibling's counter.  Here, for any base
`s`, any prior rename state `ctx` and any fuel budget, renaming
`Apply{Abstract([s], Name s), [Name s]}` maps the trailing `Name s` — whose
binder is outside this term — to `s#(ctx(s)+1)`, the counter minted for the
sibling abstraction, and returns the bumped (unrestored) state. -/
theorem c3_abstract_bumps_counters_and_never_restores
    (f : Nat) (s : String) (ctx : String → Nat) (nid i0 i1 i2 i3 : Nat) :
    renameExpr (f + 3) (.app i0 (.absExpr i1 [s] (.name i2 s)) [.name i3 s]) ctx nid =
      .ok (.app (nid + 3)
            (.absExpr (nid + 1) [s ++ "#" ++ toString (ctx s + 1)]
              (.name nid (s ++ "#" ++ toString (ctx s + 1))))
            [.name (nid + 2) (s ++ "#" ++ toString (ctx s + 1))],
          bumpAll ctx [s], nid + 4) := by
  simp [renameExpr, getRenamed, bumpAll, stepRename]

/-- C4: every constant expression checks to the corresponding value type —
`Int` to `Value(Int)`, `Bool` to `Value(Bool)`, `Float` to `Value(Float)`,
`Empty` to the `Empty` data type — and the checker state threads through
unchanged, whenever the node is not already on the cycle-guard stack (the
`Float` and `Empty` arms are the spec-modelled part of `checkConst`). -/
theorem c4_const_checks_to_value_type (f i : Nat) (c : ConstExpr) (trs : Trs)
    (h : trs.reach.contains i = false) :
    checkExpr (f + 1) (.constE i c) trs =
      (.ok (match c with
            | .int _ => .value .int
            | .bool _ => .value .bool
            | .float _ => .value .float
            | .empty => .empty), trs) := by
  have h' : i ∉ trs.reach := by simpa using h
  cases c <;> simp [checkExpr, checkBody, Expr.exprId, h', checkConst]

/-- Witness for C4 at the concrete inputs `5 : Int` and `Empty` in the
empty checker state. -/
theorem c4_const_checks_to_value_type_witness :
    checkExpr 1 (.constE 0 (.int 5)) emptyTrs = (.ok (.value .int), emptyTrs) ∧
    checkExpr 1 (.constE 0 .empty) emptyTrs = (.ok .empty, emptyTrs) :=
  ⟨c4_const_checks_to_value_type 0 0 (.int 5) emptyTrs rfl,
   c4_const_checks_to_value_type 0 0 .empty emptyTrs rfl⟩

/-- C8: the integer `div` and `mod` hosts on a zero second operand return
the `DivByZero` runtime error — for any first operand `a` and any argument
thunks that force to `Int a` and `Int 0`; and concretely, `(($div 5 0))`
type-checks to root type `Int` while its evaluation returns `DivByZero`
rather than a value. -/
theorem c8_div_mod_by_zero (f t1 t2 : Nat) (a : Int) (s s1 s2 : EvalSt)
    (h1 : evalGo f (.force t1) s = (.ok (.int a), s1))
    (h2 : evalGo f (.force t2) s1 = (.ok (.int 0), s2)) :
    evalGo (f + 1) (.host "div" [t1, t2]) s = (.error .divByZero, s2) ∧
    evalGo (f + 1) (.host "mod" [t1, t2]) s = (.error .divByZero, s2) ∧
    typecheckProgram "(($div 5 0))" = some (.ok (.value .int)) ∧
    evalProgram "(($div 5 0))" = some (.error .divByZero) := by
  refine ⟨?_, ?_, rfl, rfl⟩ <;> simp [evalGo, h1, h2, binopNames, binopIntOp]

/-- Witness for C8: forcing the two thunks of `divZeroSt` yields `Int 5`
and `Int 0`, and the `div` host then errors with `DivByZero`. -/
theorem c8_div_mod_by_zero_witness :
    evalGo 3 (.host "div" [0, 1]) divZeroSt =
      (.error .divByZero, (evalGo 2 (.force 1) ((evalGo 2 (.force 0) divZeroSt).2)).2) :=
  (c8_div_mod_by_zero 2 0 1 5 divZeroSt ((evalGo 2 (.force 0) divZeroSt).2)
    ((evalGo 2 (.force 1) ((evalGo 2 (.force 0) divZeroSt).2)).2) rfl rfl).1

/-- C5 counterexample: the target `omegaExpr` type-checks to `Divergent`,
yet applying it to the non-empty argument list `[Const 1]` does not
propagate `Divergent` — the checker reports the "cannot apply with params
on non-function value" type error (`typeck.rs` lines 209-218 have no
`Divergent` arm), both on the explicit AST and through the full pipeline
on `(((\loop (loop loop)) (\loop (loop loop))) 1)`. -/
theorem c5_divergent_target_with_args_is_error_not_divergent :
    (checkExpr 20 omegaExpr emptyTrs).1 = .ok .divergent ∧
    (checkExpr 21 applyOmega emptyTrs).1 =
      .error (.custom "cannot apply with params on non-function value") ∧
    typecheckProgram "(((\\loop (loop loop)) (\\loop (loop loop))) 1)" =
      some (.error (.custom "cannot apply with params on non-function value")) ∧
    ((checkExpr 21 applyOmega emptyTrs).1).isOk = false :=
  ⟨rfl, rfl, rfl, rfl⟩

/-- C5 amended: for an `Apply` whose target is not a bare `Name` (a `Name`
target resolving to the `Never` sentinel still short-circuits to
`Divergent`) and whose target type-checks to `Divergent`: with an empty
argument list the `Apply` checks to `Divergent`, but with a non-empty
argument list the checker reports the "cannot apply with params on
non-function value" type error rather than propagating `Divergent`. -/
theorem c5_divergent_target_propagates_only_without_args
    (f i : Nat) (target : Expr) (aparams : List Expr) (trs trs1 : Trs)
    (hn : target.isNameE = false)
    (hg : trs.reach.contains i = false)
    (ht : checkExpr f target { trs with reach := i :: trs.reach } =
      (.ok .divergent, trs1)) :
    checkExpr (f + 1) (.app i target aparams) trs =
      ((if aparams.length == 0 then .ok .divergent
        else .error (.custom "cannot apply with params on non-function value")),
       { trs1 with reach := trs1.reach.erase i }) := by
  have h' : i ∉ trs.reach := by simpa using hg
  cases target <;>
    simp_all [checkExpr, checkBody, checkAppFrom, checkAppTail, Expr.exprId,
      Expr.isNameE] <;>
    cases aparams <;> simp_all

/-- Witness for C5 at `applyOmega` in the empty checker state. -/
theorem c5_divergent_target_propagates_only_without_args_witness :
    checkExpr 20 applyOmega emptyTrs =
      (.error (.custom "cannot apply with params on non-function value"),
       { (checkExpr 19 omegaExpr ⟨[], [100]⟩).2 with
         reach := ((checkExpr 19 omegaExpr ⟨[], [100]⟩).2).reach.erase 100 }) :=
  c5_divergent_target_propagates_only_without_args 19 100 omegaExpr
    [.constE 101 (.int 1)] emptyTrs ((checkExpr 19 omegaExpr ⟨[], [100]⟩).2)
    rfl rfl rfl

/-- C6: on every argument type triple, the `if` host's type check
(`IfOp::typeck`, `corelib.rs` lines 134-162) returns exactly what the
claim describes — `specIfResult`'s `some d` means the code returns `ok d`,
`none` means it returns a type error. -/
theorem c6_if_typeck_follows_spec (p t e : DataType) :
    (match specIfResult p t e with
     | some d => ifOpTypeck [p, t, e] = .ok d
     | none => (ifOpTypeck [p, t, e]).isOk = false) := by
  cases p <;>
    simp [specIfResult, ifOpTypeck, DataType.isDivergentDt, DataType.isValueBool,
      Except.isOk, Except.toBool]
  case value v =>
    cases v
    case int => simp [Except.isOk, Except.toBool]
    case float => simp [Except.isOk, Except.toBool]
    case bool =>
      simp only [Bool.not_true, Bool.not_false]
      cases t <;> cases e <;>
        try simp [eqFuel, dtEq, Except.isOk, Except.toBool]
      all_goals split_ifs <;> simp [Except.isOk, Except.toBool]

/-- C10: the logical hosts `and` and `or` are strict in both operands —
`BasicRelop::eval` (`corelib.rs` lines 42-67) forces the first and then
the second operand before combining, so an error from the second operand
propagates even when the first alone already determines the boolean
result (any first operand value `b` is covered, in particular `false` for
`and` and `true` for `or`); concretely,
`(($and false ($eq ($div 1 0) 1)))` type-checks to `Bool` and evaluates to
the `DivByZero` error raised by its second operand. -/
theorem c10_and_or_strict_in_both_operands
    (f t1 t2 : Nat) (b : Bool) (err : RuntimeError) (s s1 s2 : EvalSt)
    (h1 : evalGo f (.force t1) s = (.ok (.bool b), s1))
    (h2 : evalGo f (.force t2) s1 = (.error err, s2)) :
    evalGo (f + 1) (.host "and" [t1, t2]) s = (.error err, s2) ∧
    evalGo (f + 1) (.host "or" [t1, t2]) s = (.error err, s2) ∧
    typecheckProgram "(($and false ($eq ($div 1 0) 1)))" =
      some (.ok (.value .bool)) ∧
    evalProgram "(($and false ($eq ($div 1 0) 1)))" = some (.error .divByZero) := by
  refine ⟨?_, ?_, rfl, rfl⟩ <;>
    simp [evalGo, binopNames, relopNames, h1, h2]

/-- Witness for C10: in `andOrSt` the first thunk forces to `Bool false`,
the second raises `DivByZero`, and `and` propagates the error. -/
theorem c10_and_or_strict_in_both_operands_witness :
    evalGo 9 (.host "and" [0, 1]) andOrSt =
      (.error .divByZero, (evalGo 8 (.force 1) ((evalGo 8 (.force 0) andOrSt).2)).2) :=
  (c10_and_or_strict_in_both_operands 8 0 1 false .divByZero andOrSt
    ((evalGo 8 (.force 0) andOrSt).2)
    ((evalGo 8 (.force 1) ((evalGo 8 (.force 0) andOrSt).2)).2) rfl rfl).1

/-- Writing a memo slot does not change the number of thunk allocations. -/
theorem setOutcome_length (s : EvalSt) (tid : Nat) (v : RuntimeValue) :
    (setOutcome s tid v).thunks.length = s.thunks.length := by
  unfold setOutcome
  split <;> simp

/-- Argument binding only appends thunk allocations. -/
theorem bindArgs_thunks_mono (callerEnv : List (String × Nat)) :
    ∀ (fps : List String) (as' : List Expr) (env : List (String × Nat)) (s : EvalSt),
    s.thunks.length ≤ ((bindArgs callerEnv fps as' env s).2).thunks.length := by
  intro fps as'
  induction as' generalizing fps with
  | nil => intro env s; cases fps <;> simp [bindArgs]
  | cons a rest ih =>
    intro env s
    cases fps with
    | nil => simp [bindArgs]
    | cons fp fps' =>
      simp only [bindArgs, allocThunk]
      refine le_trans ?_ (ih fps' (envInsert env fp s.thunks.length)
        { s with thunks := s.thunks ++ [⟨a, callerEnv, none⟩] })
      simp

/-- Host-argument allocation only appends thunk allocations. -/
theorem allocArgs_thunks_mono (env : List (String × Nat)) :
    ∀ (as' : List Expr) (s : EvalSt),
    s.thunks.length ≤ ((allocArgs env as' s).2).thunks.length := by
  intro as'
  induction as' with
  | nil => intro s; simp [allocArgs]
  | cons a rest ih =>
    intro s
    simp only [allocArgs, allocThunk]
    refine le_trans ?_ (ih { s with thunks := s.thunks ++ [⟨a, env, none⟩] })
    simp

/-- The thunk heap only grows: no evaluator step deallocates a thunk
cell (allocation appends, memoisation writes in place). -/
theorem evalGo_thunks_mono (f : Nat) : ∀ (req : EvalReq) (s : EvalSt),
    s.thunks.length ≤ ((evalGo f req s).2).thunks.length := by
  induction f with
  | zero => intro req s; simp [evalGo]
  | succ f ih =>
    intro req s
    cases req with
    | ev e =>
      cases e with
      | constE i c => cases c <;> simp [evalGo]
      | absExpr i ps b => simp [evalGo]
      | absHost i ps h => simp [evalGo]
      | never i => simp [evalGo]
      | name i n =>
        simp only [evalGo]
        split
        · simp
        · simpa using ih (.force _) { s with evalCount := s.evalCount + 1 }
      | app i target aparams =>
        simp only [evalGo]
        rcases h1 : evalGo f (.ev target) { s with evalCount := s.evalCount + 1 }
          with ⟨r1, s1⟩
        have m1 : s.thunks.length ≤ s1.thunks.length := by
          have := ih (.ev target) { s with evalCount := s.evalCount + 1 }
          rw [h1] at this
          simpa using this
        cases r1 with
        | error err => exact m1
        | ok tv =>
          cases tv with
          | empty => dsimp only; cases aparams <;> simp [m1]
          | int v => dsimp only; cases aparams <;> simp [m1]
          | float v => dsimp only; cases aparams <;> simp [m1]
          | bool v => dsimp only; cases aparams <;> simp [m1]
          | host hname =>
            dsimp only
            rcases h2 : allocArgs s1.values aparams s1 with ⟨tids, s2⟩
            have m2 : s1.thunks.length ≤ s2.thunks.length := by
              have := allocArgs_thunks_mono s1.values aparams s1
              rw [h2] at this
              exact this
            exact m1.trans (m2.trans (ih (.host hname tids) s2))
          | func fparams body ctxValues =>
            dsimp only
            rcases h2 : bindArgs s1.values fparams aparams ctxValues s1 with ⟨r2, s2⟩
            have m2 : s1.thunks.length ≤ s2.thunks.length := by
              have := bindArgs_thunks_mono s1.values fparams aparams ctxValues s1
              rw [h2] at this
              exact this
            cases r2 with
            | error err => exact m1.trans m2
            | ok env' =>
              dsimp only
              rcases h3 : evalGo f (.ev body) { s2 with values := env' } with ⟨r3, s4⟩
              have m3 : s2.thunks.length ≤ s4.thunks.length := by
                have := ih (.ev body) { s2 with values := env' }
                rw [h3] at this
                simpa using this
              try rw [h3]
              simpa using m1.trans (m2.trans m3)
    | force tid =>
      simp only [evalGo]
      split
      · exact le_refl _
      case h_2 th hth =>
        split
        · exact le_refl _
        · rcases h2 : evalGo f (.ev th.texpr) { s with values := th.tenv } with ⟨r, s2⟩
          have m2 : s.thunks.length ≤ s2.thunks.length := by
            have := ih (.ev th.texpr) { s with values := th.tenv }
            rw [h2] at this
            simpa using this
          cases r with
          | error err => simpa using m2
          | ok v =>
            dsimp only
            simpa [setOutcome_length] using m2
    | host name args =>
      simp only [evalGo]
      split
      case isTrue =>
        split
        case h_2 => exact le_refl _
        case h_1 t1 t2 rest =>
          rcases h1 : evalGo f (.force t1) s with ⟨r1, s1⟩
          have m1 : s.thunks.length ≤ s1.thunks.length := by
            have := ih (.force t1) s
            rw [h1] at this
            exact this
          cases r1 with
          | error err => exact m1
          | ok left =>
            dsimp only
            rcases h2 : evalGo f (.force t2) s1 with ⟨r2, s2⟩
            have m2 : s1.thunks.length ≤ s2.thunks.length := by
              have := ih (.force t2) s1
              rw [h2] at this
              exact this
            cases r2 with
            | error err => exact m1.trans m2
            | ok right =>
              dsimp only
              cases left <;> cases right <;> dsimp only <;>
                first
                  | exact m1.trans m2
                  | (split <;> exact m1.trans m2)
      case isFalse =>
        split
        case isTrue =>
          split
          case h_2 => exact le_refl _
          case h_1 t1 t2 rest =>
            rcases h1 : evalGo f (.force t1) s with ⟨r1, s1⟩
            have m1 : s.thunks.length ≤ s1.thunks.length := by
              have := ih (.force t1) s
              rw [h1] at this
              exact this
            cases r1 with
            | error err => exact m1
            | ok left =>
              dsimp only
              rcases h2 : evalGo f (.force t2) s1 with ⟨r2, s2⟩
              have m2 : s1.thunks.length ≤ s2.thunks.length := by
                have := ih (.force t2) s1
                rw [h2] at this
                exact this
              cases r2 with
              | error err => exact m1.trans m2
              | ok right =>
                dsimp only
                cases left <;> cases right <;> dsimp only <;>
                  first
                    | exact m1.trans m2
                    | (split <;> exact m1.trans m2)
        case isFalse =>
          split
          case isTrue =>
            split
            case h_2 => exact le_refl _
            case h_1 tp rest =>
              rcases h1 : evalGo f (.force tp) s with ⟨r1, s1⟩
              have m1 : s.thunks.length ≤ s1.thunks.length := by
                have := ih (.force tp) s
                rw [h1] at this
                exact this
              cases r1 with
              | error err => exact m1
              | ok pv =>
                dsimp only
                cases pv <;> dsimp only <;> try exact m1
                case bool b =>
                  split
                  case h_1 tb _ => exact m1.trans (ih (.force tb) s1)
                  case h_2 => exact m1
          case isFalse =>
            split
            case isTrue =>
              split
              case h_2 => exact le_refl _
              case h_1 t1 t2 rest =>
                rcases h1 : evalGo f (.force t1) s with ⟨r1, s1⟩
                have m1 : s.thunks.length ≤ s1.thunks.length := by
                  have := ih (.force t1) s
                  rw [h1] at this
                  exact this
                cases r1 with
                | error err => exact m1
                | ok left =>
                  dsimp only
                  rcases h2 : evalGo f (.force t2) s1 with ⟨r2, s2⟩
                  have m2 : s1.thunks.length ≤ s2.thunks.length := by
                    have := ih (.force t2) s1
                    rw [h2] at this
                    exact this
                  cases r2 with
                  | error err => exact m1.trans m2
                  | ok right => exact m1.trans m2
            case isFalse => exact le_refl _

/-- C7: a thunk is evaluated at most once per thunk identity.  With the
memo slot already filled with `v`, forcing returns `v` with the state —
including the ghost counter of expression evaluations — completely
unchanged, so the underlying expression is not re-evaluated; this holds for
every environment that maps a name to the same thunk id, since forcing
depends only on the id.  With an empty slot, a successful first force
returns the computed value and writes it into the slot (`LazyValue::eval`,
`eval.rs` lines 207-228), where every later force finds it. -/
theorem c7_thunk_forced_at_most_once (f tid : Nat) (s : EvalSt) (th : ThunkCell)
    (hth : s.thunks.get? tid = some th) :
    (∀ v, th.outcome = some v → evalGo (f + 1) (.force tid) s = (.ok v, s)) ∧
    (∀ v s2, th.outcome = none →
       evalGo f (.ev th.texpr) { s with values := th.tenv } = (.ok v, s2) →
       evalGo (f + 1) (.force tid) s =
         (.ok v, setOutcome { s2 with values := s.values } tid v) ∧
       ∃ th2, (setOutcome { s2 with values := s.values } tid v).thunks.get? tid =
           some th2 ∧ th2.outcome = some v) := by
  constructor
  · intro v hv
    simp only [evalGo, hth, hv]
  · intro v s2 hnone hev
    have hlt : tid < s.thunks.length := by
      rcases List.get?_eq_some.mp hth with ⟨h, _⟩
      exact h
    have hlt2 : tid < s2.thunks.length := by
      have := evalGo_thunks_mono f (.ev th.texpr) { s with values := th.tenv }
      rw [hev] at this
      simpa using lt_of_lt_of_le hlt this
    constructor
    · simp only [evalGo, hth, hnone, hev]
    · rcases hc : s2.thunks.get? tid with _ | c
      · exact absurd (List.get?_eq_none.mp hc) (by omega)
      · refine ⟨{ c with outcome := some v }, ?_, rfl⟩
        simp only [setOutcome, hc]
        rw [List.get?_eq_getElem?]
        exact List.getElem?_set_eq_of_lt _ (by simpa using hlt2)

/-- Witness for C7: the filled slot of `memoSt` is returned with the state
untouched, and the first force of `freshSt`'s thunk computes `Int 7` and
stores it in the slot. -/
theorem c7_thunk_forced_at_most_once_witness :
    evalGo 1 (.force 0) memoSt = (.ok (.int 7), memoSt) ∧
    (evalGo 2 (.force 0) freshSt =
       (.ok (.int 7),
        setOutcome
          { (evalGo 1 (.ev (.constE 1 (.int 7))) { freshSt with values := [] }).2
            with values := freshSt.values } 0 (.int 7)) ∧
     ∃ th2,
       (setOutcome
          { (evalGo 1 (.ev (.constE 1 (.int 7))) { freshSt with values := [] }).2
            with values := freshSt.values } 0 (.int 7)).thunks.get? 0 = some th2 ∧
         th2.outcome = some (.int 7)) :=
  ⟨(c7_thunk_forced_at_most_once 0 0 memoSt ⟨.constE 1 (.int 7), [], some (.int 7)⟩
      rfl).1 (.int 7) rfl,
   (c7_thunk_forced_at_most_once 1 0 freshSt ⟨.constE 1 (.int 7), [], none⟩ rfl).2
     (.int 7) ((evalGo 1 (.ev (.constE 1 (.int 7))) { freshSt with values := [] }).2)
     rfl rfl⟩


/-- The argument-type fold leaves the substitution map and the guard set
exactly as it found them, provided each individual check does. -/
theorem foldl_stepParamTy_pres
    (check : Expr → Trs → Except TypeError DataType × Trs)
    (hcheck : ∀ e trs, (check e trs).2.subs = trs.subs ∧
      (check e trs).2.reach = trs.reach) :
    ∀ (ps : List Expr) (acc : Except TypeError (List DataType) × Trs),
      (ps.foldl (stepParamTy check) acc).2.subs = acc.2.subs ∧
      (ps.foldl (stepParamTy check) acc).2.reach = acc.2.reach := by
  intro ps
  induction ps with
  | nil => intro acc; exact ⟨rfl, rfl⟩
  | cons p rest ih =>
    intro acc
    rcases acc with ⟨r, trs⟩
    have hstep : (stepParamTy check (r, trs) p).2.subs = trs.subs ∧
        (stepParamTy check (r, trs) p).2.reach = trs.reach := by
      cases r with
      | error e => exact ⟨rfl, rfl⟩
      | ok tys =>
        simp only [stepParamTy]
        rcases h : check p trs with ⟨r2, trs2⟩
        have hc := hcheck p trs
        rw [h] at hc
        cases r2 <;> dsimp only <;> exact hc
    rcases ih (stepParamTy check (r, trs) p) with ⟨ih1, ih2⟩
    simp only [List.foldl]
    exact ⟨ih1.trans hstep.1, ih2.trans hstep.2⟩

/-- The beta step restores the substitution map wholesale (the second
`mem::swap`) and, given that the recursive check preserves the guard set,
leaves the guard set unchanged as well. -/
theorem checkBeta_pres (check : Expr → Trs → Except TypeError DataType × Trs)
    (hcheck : ∀ e trs, (check e trs).2.subs = trs.subs ∧
      (check e trs).2.reach = trs.reach)
    (paramSet : List (String × Expr)) (fparams : List String)
    (aparams : List Expr) (bodyE : Expr) (trs2 : Trs) :
    (checkBeta check paramSet fparams aparams bodyE trs2).2.subs = trs2.subs ∧
    (checkBeta check paramSet fparams aparams bodyE trs2).2.reach = trs2.reach := by
  refine ⟨rfl, ?_⟩
  exact (hcheck bodyE _).2

/-- `checkAppTail` preserves the substitution map and the guard set,
provided the recursive check does. -/
theorem checkAppTail_pres (check : Expr → Trs → Except TypeError DataType × Trs)
    (hcheck : ∀ e trs, (check e trs).2.subs = trs.subs ∧
      (check e trs).2.reach = trs.reach)
    (targetTy : DataType) (aparams : List Expr) (trs1 : Trs) :
    (checkAppTail check targetTy aparams trs1).2.subs = trs1.subs ∧
    (checkAppTail check targetTy aparams trs1).2.reach = trs1.reach := by
  cases targetTy with
  | functionDecl fparams declExpr paramSet =>
    simp only [checkAppTail]
    rcases h : aparams.foldl (stepParamTy check) (.ok [], trs1) with ⟨r2, trs2⟩
    have hfold := foldl_stepParamTy_pres check hcheck aparams (.ok [], trs1)
    rw [h] at hfold
    cases r2 with
    | error err => exact hfold
    | ok paramTypes =>
      dsimp only
      split
      · exact hfold
      next i ps bodyE =>
        split
        · exact hfold
        · have hb := checkBeta_pres check hcheck paramSet fparams aparams bodyE trs2
          exact ⟨hb.1.trans hfold.1, hb.2.trans hfold.2⟩
      next => exact hfold
  | empty => simp only [checkAppTail]; split <;> exact ⟨rfl, rfl⟩
  | value v => simp only [checkAppTail]; split <;> exact ⟨rfl, rfl⟩
  | divergent => simp only [checkAppTail]; split <;> exact ⟨rfl, rfl⟩
  | custom inner => simp only [checkAppTail]; split <;> exact ⟨rfl, rfl⟩

/-- `checkBody` preserves the substitution map and the guard set, provided
the recursive check does. -/
theorem checkBody_pres (check : Expr → Trs → Except TypeError DataType × Trs)
    (hcheck : ∀ e trs, (check e trs).2.subs = trs.subs ∧
      (check e trs).2.reach = trs.reach)
    (e : Expr) (trsIn : Trs) :
    (checkBody check e trsIn).2.subs = trsIn.subs ∧
    (checkBody check e trsIn).2.reach = trsIn.reach := by
  have happ : ∀ (applyTarget : Expr) (aparams : List Expr),
      (checkAppFrom check applyTarget aparams trsIn).2.subs = trsIn.subs ∧
      (checkAppFrom check applyTarget aparams trsIn).2.reach = trsIn.reach := by
    intro applyTarget aparams
    simp only [checkAppFrom]
    rcases h : check applyTarget trsIn with ⟨r1, trs1⟩
    have h1 := hcheck applyTarget trsIn
    rw [h] at h1
    cases r1 with
    | error err => exact h1
    | ok targetTy =>
      dsimp only
      have h2 := checkAppTail_pres check hcheck targetTy aparams trs1
      exact ⟨h2.1.trans h1.1, h2.2.trans h1.2⟩
  cases e with
  | constE i c => exact ⟨rfl, rfl⟩
  | never i => exact ⟨rfl, rfl⟩
  | absExpr i ps b => exact ⟨rfl, rfl⟩
  | absHost i ps h => exact ⟨rfl, rfl⟩
  | name i n =>
    simp only [checkBody]
    rcases hr : resolveName trsIn n with _ | e2
    · exact ⟨rfl, rfl⟩
    · dsimp only
      split
      · exact ⟨rfl, rfl⟩
      · exact hcheck e2 trsIn
  | app i target aparams =>
    simp only [checkBody]
    cases target with
    | name j n =>
      dsimp only
      rcases hr : resolveName trsIn n with _ | e2
      · exact ⟨rfl, rfl⟩
      · dsimp only
        split
        all_goals first
          | exact ⟨rfl, rfl⟩
          | exact happ _ aparams
    | constE j c => exact happ _ aparams
    | app j t ps => exact happ _ aparams
    | absExpr j ps b => exact happ _ aparams
    | absHost j ps h => exact happ _ aparams
    | never j => exact happ _ aparams

/-- C9: every call to the checker's expression-check operation leaves the
checker state unchanged — whether it returns a type, `Divergent`, or a
type error (or runs out of model fuel), the substitution map and the
cycle-guard set after the call equal their values before it
(`with_resolved` restores the map, the `ExprReachGuard` drop releases the
guard on every exit path). -/
theorem c9_check_preserves_subs_and_guard (fuel : Nat) :
    ∀ (e : Expr) (trs : Trs),
      (checkExpr fuel e trs).2.subs = trs.subs ∧
      (checkExpr fuel e trs).2.reach = trs.reach := by
  induction fuel with
  | zero => intro e trs; exact ⟨rfl, rfl⟩
  | succ f ih =>
    intro e trs
    simp only [checkExpr]
    split
    · exact ⟨rfl, rfl⟩
    case isFalse hni =>
      have hb := checkBody_pres (fun e' trs' => checkExpr f e' trs')
        (fun e' trs' => ih e' trs') e { subs := trs.subs, reach := e.exprId :: trs.reach }
      refine ⟨hb.1, ?_⟩
      rw [hb.2]
      exact List.erase_cons_head e.exprId trs.reach
end XLang
